import Mathlib

/-!
Verification of the metric-computation framework of `braincode/metrics.py`.

The source compares two sets of multivariate observations and produces scalar
or per-dimension similarity scores.  This file gives a shallow embedding of
that code over an exact model of floating-point scalars (NaN or a real
number), together with models of the numeric primitives the source delegates
to (scipy correlations, sklearn distances), and proves the specification
claims about it.
-/

namespace Braincode

noncomputable section

/-- Classical decidability, at the lowest priority so that all concrete
(executable) instances are preferred.  Needed because the embedding branches
on real-number comparisons, as the floating-point source does. -/
instance (priority := low) classicalPropDecidable (p : Prop) : Decidable p :=
  Classical.propDecidable p

/-- Model of a NumPy floating-point scalar: NaN or an exact real number.
Infinities never arise on any code path of this program: every division by
zero performed by the source has a zero numerator (which IEEE-754 also maps
to NaN), and every square root has a nonnegative argument. -/
inductive Fp where
  | nan : Fp
  | val (x : ℝ) : Fp

/-- NaN test (`np.isnan`). -/
def Fp.isNan : Fp → Bool
  | .nan => true
  | .val _ => false

/-- Floating-point addition: NaN absorbs. -/
def Fp.add : Fp → Fp → Fp
  | .val a, .val b => .val (a + b)
  | _, _ => .nan

/-- Floating-point subtraction: NaN absorbs. -/
def Fp.sub : Fp → Fp → Fp
  | .val a, .val b => .val (a - b)
  | _, _ => .nan

/-- Floating-point multiplication: NaN absorbs. -/
def Fp.mul : Fp → Fp → Fp
  | .val a, .val b => .val (a * b)
  | _, _ => .nan

/-- Floating-point division.  Division by zero yields NaN: at every site of
this program where the denominator can be zero the numerator is zero as well,
and IEEE-754 maps 0/0 to NaN. -/
def Fp.div : Fp → Fp → Fp
  | .val a, .val b => if b = 0 then .nan else .val (a / b)
  | _, _ => .nan

/-- Floating-point square root.  Every square-root argument in this program
is nonnegative, so the negative-argument case never matters. -/
def Fp.sqrt : Fp → Fp
  | .val a => .val (Real.sqrt a)
  | .nan => .nan

/-- NumPy strict comparison `a > b`: false whenever either side is NaN. -/
def Fp.gtb : Fp → Fp → Bool
  | .val a, .val b => decide (b < a)
  | _, _ => false

/-- Sum of a list of scalars (`np.sum`); NaN absorbs. -/
def Fp.sum (l : List Fp) : Fp := l.foldr Fp.add (.val 0)

/-- Arithmetic mean of a list of scalars (`np.mean`); the mean of an empty
list is 0/0, i.e. NaN, as in NumPy. -/
def Fp.mean (l : List Fp) : Fp := Fp.div (Fp.sum l) (.val l.length)

/-- A 2-D array: its dimensions plus a total entry function.  Entries at
indices outside the dimensions are never observed by the embedding. -/
structure Mat where
  rows : ℕ
  cols : ℕ
  entry : ℕ → ℕ → Fp

/-- Row `i` of a matrix, as a list of length `cols` (`X[i, :]`). -/
def Mat.row (m : Mat) (i : ℕ) : List Fp :=
  (List.range m.cols).map (fun j => m.entry i j)

/-- Column `j` of a matrix, as a list of length `rows` (`X[:, j]`). -/
def Mat.col (m : Mat) (j : ℕ) : List Fp :=
  (List.range m.rows).map (fun i => m.entry i j)

/-- An input array as accepted by `Metric.__call__`: 1-D or 2-D. -/
inductive NDArray where
  | d1 (v : List Fp)
  | d2 (m : Mat)

/-- The 1-D-to-2-D normalization `X.reshape(-1, 1)` performed by
`Metric.__call__`: a length-N vector becomes an (N, 1) matrix. -/
def NDArray.reshape2 : NDArray → Mat
  | .d1 v => ⟨v.length, 1, fun i _ => v.getD i (.val 0)⟩
  | .d2 m => m

/-- The error taxonomy of the specification.  `shapeError` is the
`ValueError` raised by the shape validation in `Metric.__call__`;
`configError` is the `TypeError` raised for a non-callable reduction;
`valueError` is any `ValueError` raised by a numeric primitive (for example
the length check of `scipy.stats.pearsonr`). -/
inductive PyErr where
  | shapeError : PyErr
  | configError : PyErr
  | valueError : PyErr

/-- A returned score: a scalar, or a 1-D sequence of per-feature scalars. -/
inductive PyVal where
  | scalar (x : Fp) : PyVal
  | array (xs : List Fp) : PyVal

/-- A concrete metric: its class name (used by the source's hardcoded
class-name check) and its `_apply_metric` scoring routine. -/
structure MetricImpl where
  name : String
  applyMetric : Mat → Mat → Except PyErr PyVal

/-- The hardcoded list of class names exempt from the feature-count check in
`Metric.__call__`. -/
def geometryExempt : List String := ["RepresentationalSimilarity", "LinearCKA"]

/-- `Metric.__call__`: normalize 1-D inputs to 2-D, validate sample counts,
validate feature counts unless the metric is geometry-exempt, then dispatch
to the concrete scoring routine. -/
def Metric.call (m : MetricImpl) (X Y : NDArray) : Except PyErr PyVal :=
  let X2 := X.reshape2
  let Y2 := Y.reshape2
  if X2.rows ≠ Y2.rows then .error .shapeError
  else if m.name ∉ geometryExempt ∧ X2.cols ≠ Y2.cols then .error .shapeError
  else m.applyMetric X2 Y2

/-- The possible values of the `reduction` argument of `VectorMetric`: the
Python values relevant to the claims (None, booleans, integers, strings, and
callables). -/
inductive PyObj where
  | pyNone : PyObj
  | pyBool (b : Bool) : PyObj
  | pyInt (n : ℤ) : PyObj
  | pyStr (s : String) : PyObj
  | pyFunc (f : List Fp → Fp) : PyObj

/-- Python truthiness of a reduction value (`if self._reduction:`). -/
def PyObj.truthy : PyObj → Bool
  | .pyNone => false
  | .pyBool b => b
  | .pyInt n => !(n == 0)
  | .pyStr s => !(s == "")
  | .pyFunc _ => true

/-- Python `callable` on a reduction value. -/
def PyObj.callable : PyObj → Bool
  | .pyFunc _ => true
  | _ => false

/-- `VectorMetric._apply_metric`: score each column pair with the concrete
metric's `_score`, then either apply the configured reduction (raising
`TypeError` if it is truthy but not callable) or return the raw score
sequence.  The per-column scoring runs before the reduction is examined, and
a raise from `_score` aborts the call. -/
def VectorMetric.applyMetric (score : List Fp → List Fp → Except PyErr Fp)
    (reduction : PyObj) (X Y : Mat) : Except PyErr PyVal :=
  match (List.range X.cols).mapM (fun i => score (X.col i) (Y.col i)) with
  | .error e => .error e
  | .ok scores =>
      if reduction.truthy then
        match reduction with
        | .pyFunc f => .ok (.scalar (f scores))
        | _ => .error .configError
      else .ok (.array scores)

/-- A per-dimension metric as a `MetricImpl` (construction performs no
validation of the reduction: `VectorMetric.__init__` only stores it). -/
def mkVectorMetric (name : String) (score : List Fp → List Fp → Except PyErr Fp)
    (reduction : PyObj) : MetricImpl :=
  ⟨name, VectorMetric.applyMetric score reduction⟩

/-- `MatrixMetric._apply_metric`: delegate to `_score` on the whole matrices. -/
def MatrixMetric.applyMetric (score : Mat → Mat → Except PyErr PyVal)
    (X Y : Mat) : Except PyErr PyVal :=
  score X Y

/-! ### Numeric primitives (external collaborators, section 6 of the spec)

Models of the scipy / sklearn routines the source delegates to. -/

/-- Entries of a list of scalars as exact reals; only applied to lists that
contain no NaN. -/
def toReals (l : List Fp) : List ℝ :=
  l.map (fun a => match a with | .nan => 0 | .val x => x)

/-- Whether a list of scalars contains a NaN. -/
def hasNan (l : List Fp) : Bool := l.any Fp.isNan

/-- Whether a list of reals is constant (scipy's degenerate-input test). -/
def isConst (l : List ℝ) : Bool := l.all (fun a => decide (a = l.headD 0))

/-- Sum of `f i` for `i` below `n` (row-major NumPy reductions). -/
def rsum (n : ℕ) (f : ℕ → ℝ) : ℝ := ((List.range n).map f).sum

/-- The Pearson product-moment correlation coefficient of two equal-length
real lists, clipped to [-1, 1] as scipy does.  Only evaluated on
non-degenerate inputs (the callers test for constancy first). -/
def pearsonCoef (x y : List ℝ) : ℝ :=
  let xm := x.map (fun a => a - x.sum / x.length)
  let ym := y.map (fun a => a - y.sum / y.length)
  let num := ((xm.zip ym).map (fun p => p.1 * p.2)).sum
  let den := Real.sqrt ((xm.map (fun a => a ^ 2)).sum) *
    Real.sqrt ((ym.map (fun a => a ^ 2)).sum)
  max (-1) (min 1 (num / den))

/-- Model of `scipy.stats.pearsonr` (coefficient part): raises `ValueError`
on a length mismatch or on fewer than two observations, returns NaN when an
input contains NaN or is constant, and otherwise the clipped coefficient. -/
def pearsonr (x y : List Fp) : Except PyErr Fp :=
  if x.length ≠ y.length then .error .valueError
  else if x.length < 2 then .error .valueError
  else if hasNan x || hasNan y then .ok .nan
  else if isConst (toReals x) || isConst (toReals y) then .ok .nan
  else .ok (.val (pearsonCoef (toReals x) (toReals y)))

/-- Average-rank transform of a real list (`scipy.stats.rankdata`, ties get
their average rank). -/
def rankdata (l : List ℝ) : List ℝ :=
  l.map (fun a =>
    ((l.filter (fun b => decide (b < a))).length : ℝ) +
      (((l.filter (fun b => decide (b = a))).length : ℝ) + 1) / 2)

/-- Model of `scipy.stats.spearmanr` (coefficient part): Pearson correlation
of the rank-transformed values, with the same degenerate cases as
`pearsonr`. -/
def spearmanr (x y : List Fp) : Except PyErr Fp :=
  if x.length ≠ y.length then .error .valueError
  else if x.length < 2 then .ok .nan
  else if hasNan x || hasNan y then .ok .nan
  else if isConst (toReals x) || isConst (toReals y) then .ok .nan
  else .ok (.val (pearsonCoef (rankdata (toReals x)) (rankdata (toReals y))))

/-- The row-major list of strictly-upper-triangular index pairs of an n × n
matrix (`np.triu_indices(n, k=1)`), also used to enumerate the item pairs of
Kendall's tau. -/
def triuIndices (n : ℕ) : List (ℕ × ℕ) :=
  (List.range n).flatMap (fun a =>
    ((List.range n).filter (fun b => decide (a < b))).map (fun b => (a, b)))

/-- Kendall's tau-b over real lists: (concordant - discordant) over the
geometric mean of the non-tied pair counts. -/
def kendallCoef (x y : List ℝ) : ℝ :=
  let ps := triuIndices x.length
  let num := (ps.map (fun p =>
    Real.sign ((x.getD p.1 0 - x.getD p.2 0) * (y.getD p.1 0 - y.getD p.2 0)))).sum
  let tx := ((ps.filter (fun p => decide (x.getD p.1 0 = x.getD p.2 0))).length : ℝ)
  let ty := ((ps.filter (fun p => decide (y.getD p.1 0 = y.getD p.2 0))).length : ℝ)
  num / Real.sqrt (((ps.length : ℝ) - tx) * ((ps.length : ℝ) - ty))

/-- Model of `scipy.stats.kendalltau` (coefficient part), with the same
degenerate cases as `pearsonr`. -/
def kendalltau (x y : List Fp) : Except PyErr Fp :=
  if x.length ≠ y.length then .error .valueError
  else if x.length < 2 then .ok .nan
  else if hasNan x || hasNan y then .ok .nan
  else if isConst (toReals x) || isConst (toReals y) then .ok .nan
  else .ok (.val (kendallCoef (toReals x) (toReals y)))

/-- Model of `sklearn.metrics.mean_squared_error` with `squared=False`: the
root of the mean squared difference.  sklearn rejects empty or
NaN-containing input with a `ValueError`. -/
def mean_squared_error (x y : List Fp) : Except PyErr Fp :=
  if x.length ≠ y.length then .error .valueError
  else if x.length = 0 then .error .valueError
  else if hasNan x || hasNan y then .error .valueError
  else .ok (.val (Real.sqrt
    ((((toReals x).zip (toReals y)).map (fun p => (p.1 - p.2) ^ 2)).sum / x.length)))

/-- Model of `sklearn.metrics.accuracy_score` with `normalize=True`: the
fraction of exactly matching entries.  sklearn rejects empty or
NaN-containing input with a `ValueError`. -/
def accuracy_score (x y : List Fp) : Except PyErr Fp :=
  if x.length ≠ y.length then .error .valueError
  else if x.length = 0 then .error .valueError
  else if hasNan x || hasNan y then .error .valueError
  else .ok (.val
    ((((toReals x).zip (toReals y)).filter (fun p => decide (p.1 = p.2))).length / (x.length : ℝ)))

/-- The Euclidean row distance (the default distance name of RankAccuracy). -/
def euclidean (u v : List Fp) : Fp :=
  if hasNan u || hasNan v then .nan
  else .val (Real.sqrt ((((toReals u).zip (toReals v)).map (fun p => (p.1 - p.2) ^ 2)).sum))

/-- The correlation row distance (the default distance name of
RepresentationalSimilarity): one minus the cosine of the centered vectors.
When either centered vector is zero the distance is 0/0, i.e. NaN; by the
Cauchy-Schwarz inequality the numerator vanishes whenever the denominator
does, so no infinity can arise. -/
def correlationDist (u v : List Fp) : Fp :=
  if hasNan u || hasNan v then .nan
  else
    let x := toReals u
    let y := toReals v
    let xm := x.map (fun a => a - x.sum / x.length)
    let ym := y.map (fun a => a - y.sum / y.length)
    let uv := ((xm.zip ym).map (fun p => p.1 * p.2)).sum
    let uu := (xm.map (fun a => a ^ 2)).sum
    let vv := (ym.map (fun a => a ^ 2)).sum
    if Real.sqrt (uu * vv) = 0 then .nan
    else .val (1 - uv / Real.sqrt (uu * vv))

/-- `sklearn.metrics.pairwise_distances(X, Y, metric=dist)`: the
(rows X) × (rows Y) matrix of distances between rows.  The source selects
the distance function by its string name; the model takes the selected
function directly. -/
def pairwise_distances2 (dist : List Fp → List Fp → Fp) (X Y : Mat) : ℕ → ℕ → Fp :=
  fun i j => dist (X.row i) (Y.row j)

/-- `sklearn.metrics.pairwise_distances(X, metric=dist)`: the square matrix
of distances among the rows of a single matrix. -/
def pairwise_distances1 (dist : List Fp → List Fp → Fp) (X : Mat) : ℕ → ℕ → Fp :=
  fun i j => dist (X.row i) (X.row j)

/-! ### The five per-dimension metrics -/

/-- `PearsonR` with a configurable reduction. -/
def PearsonR (reduction : PyObj) : MetricImpl :=
  mkVectorMetric "PearsonR" pearsonr reduction

/-- `SpearmanRho` with a configurable reduction. -/
def SpearmanRho (reduction : PyObj) : MetricImpl :=
  mkVectorMetric "SpearmanRho" spearmanr reduction

/-- `KendallTau` with a configurable reduction. -/
def KendallTau (reduction : PyObj) : MetricImpl :=
  mkVectorMetric "KendallTau" kendalltau reduction

/-- `RMSE` with a configurable reduction. -/
def RMSE (reduction : PyObj) : MetricImpl :=
  mkVectorMetric "RMSE" mean_squared_error reduction

/-- `ClassificationAccuracy` with a configurable reduction. -/
def ClassificationAccuracy (reduction : PyObj) : MetricImpl :=
  mkVectorMetric "ClassificationAccuracy" accuracy_score reduction

/-- The default reduction of every `VectorMetric`: `np.mean`. -/
def defaultReduction : PyObj := .pyFunc Fp.mean

/-- `PearsonR()` with its default mean reduction (also the default inner
comparison metric of RepresentationalSimilarity). -/
def PearsonRDefault : MetricImpl := PearsonR defaultReduction

/-! ### The three whole-matrix metrics -/

/-- `RankAccuracy._score`: from the pairwise distance matrix `D` between the
rows of X and the rows of Y, the mean over `j` of the fraction of entries of
row `j` of `D` (that is, of column `j` of `D` transposed) that strictly
exceed the diagonal entry `D[j, j]`, out of `Y.rows - 1`.  This is the
NumPy broadcast `(distances.T > np.diag(distances)).sum(axis=0)` divided by
`distances.shape[1] - 1`, then averaged. -/
def RankAccuracy.colScore (dist : List Fp → List Fp → Fp) (X Y : Mat)
    (j : ℕ) : Fp :=
  Fp.div
    (.val (((List.range Y.rows).filter (fun i =>
      Fp.gtb (pairwise_distances2 dist X Y j i)
        (pairwise_distances2 dist X Y j j))).length))
    (.val ((Y.rows : ℝ) - 1))

/-- `RankAccuracy._score`: the mean of the per-index fractions. -/
def RankAccuracy.score (dist : List Fp → List Fp → Fp) (X Y : Mat) :
    Except PyErr PyVal :=
  .ok (.scalar (Fp.mean ((List.range X.rows).map (RankAccuracy.colScore dist X Y))))

/-- `RankAccuracy` as a metric, with a configurable distance. -/
def RankAccuracyMetric (dist : List Fp → List Fp → Fp) : MetricImpl :=
  ⟨"RankAccuracy", MatrixMetric.applyMetric (RankAccuracy.score dist)⟩

/-- The strictly-upper-triangular entries of an n × n matrix as a flat
row-major vector (`M[np.triu_indices(n, k=1)]`). -/
def triuVec (n : ℕ) (f : ℕ → ℕ → Fp) : List Fp :=
  (triuIndices n).map (fun p => f p.1 p.2)

/-- NaN-to-zero substitution on a matrix (`M[np.isnan(M)] = 0`). -/
def nansub (f : ℕ → ℕ → Fp) : ℕ → ℕ → Fp :=
  fun i j => match f i j with | .nan => .val 0 | x => x

/-- `RepresentationalSimilarity._score`: build the two dissimilarity
matrices, replace their NaN entries by zero exactly when either input has
one column, then hand the two strictly-upper-triangular vectors to the inner
comparison metric. -/
def RepresentationalSimilarity.score (dist : List Fp → List Fp → Fp)
    (comparison : NDArray → NDArray → Except PyErr PyVal) (X Y : Mat) :
    Except PyErr PyVal :=
  let Xrdm := pairwise_distances1 dist X
  let Yrdm := pairwise_distances1 dist Y
  let Xrdm2 := if X.cols = 1 ∨ Y.cols = 1 then nansub Xrdm else Xrdm
  let Yrdm2 := if X.cols = 1 ∨ Y.cols = 1 then nansub Yrdm else Yrdm
  comparison (.d1 (triuVec X.rows Xrdm2)) (.d1 (triuVec X.rows Yrdm2))

/-- `RepresentationalSimilarity` as a metric, with a configurable distance
and inner comparison. -/
def RSMetric (dist : List Fp → List Fp → Fp)
    (comparison : NDArray → NDArray → Except PyErr PyVal) : MetricImpl :=
  ⟨"RepresentationalSimilarity",
    MatrixMetric.applyMetric (RepresentationalSimilarity.score dist comparison)⟩

/-- `RepresentationalSimilarity()` with its default correlation distance and
default PearsonR inner comparison. -/
def RSDefault : MetricImpl :=
  RSMetric correlationDist (Metric.call PearsonRDefault)

/-- Matrix transpose. -/
def Mat.transpose (m : Mat) : Mat := ⟨m.cols, m.rows, fun i j => m.entry j i⟩

/-- Matrix product (`np.dot`); dimensions always align at the call sites. -/
def matmul (A B : Mat) : Mat :=
  ⟨A.rows, B.cols, fun i j =>
    Fp.sum ((List.range A.cols).map (fun k => Fp.mul (A.entry i k) (B.entry k j)))⟩

/-- `LinearCKA._center`'s centering matrix `H = I - U/N` (`np.eye(N)` minus
`np.ones([N, N]) / N`). -/
def LinearCKA.centerH (n : ℕ) : Mat :=
  ⟨n, n, fun i j =>
    Fp.sub (if i = j then .val 1 else .val 0) (Fp.div (.val 1) (.val n))⟩

/-- `LinearCKA._center`: the double centering `H · K · H`. -/
def LinearCKA.center (K : Mat) : Mat :=
  matmul (matmul (LinearCKA.centerH K.rows) K) (LinearCKA.centerH K.rows)

/-- `LinearCKA._HSIC`: the sum of the elementwise products of the centered
linear Gram matrices of A and B. -/
def LinearCKA.HSIC (A B : Mat) : Fp :=
  let CA := LinearCKA.center (matmul A A.transpose)
  let CB := LinearCKA.center (matmul B B.transpose)
  Fp.sum ((List.range A.rows).flatMap (fun i =>
    (List.range A.rows).map (fun j => Fp.mul (CA.entry i j) (CB.entry i j))))

/-- `LinearCKA._score`: the normalized HSIC ratio. -/
def LinearCKA.score (X Y : Mat) : Except PyErr PyVal :=
  .ok (.scalar (Fp.div (LinearCKA.HSIC X Y)
    (Fp.mul (Fp.sqrt (LinearCKA.HSIC X X)) (Fp.sqrt (LinearCKA.HSIC Y Y)))))

/-- `LinearCKA` as a metric. -/
def LinearCKAMetric : MetricImpl :=
  ⟨"LinearCKA", MatrixMetric.applyMetric LinearCKA.score⟩

/-! ### Definitions written from the specification text

These follow the spec's words (not the source) and are compared against the
source-derived definitions in the refinement claims. -/

/-- A real matrix presented as a `Mat` whose entries all carry real values. -/
def Mat.ofReal (r c : ℕ) (f : ℕ → ℕ → ℝ) : Mat := ⟨r, c, fun i j => .val (f i j)⟩

/-- The entries of the spec's centering matrix `H = I - (1/N)·J`. -/
def Hr (n : ℕ) (i j : ℕ) : ℝ := (if i = j then 1 else 0) - 1 / (n : ℝ)

/-- Modelled from the spec (section 4.8): the double centering `H·K·H` of an
n × n real matrix, written entrywise. -/
def centerR (n : ℕ) (K : ℕ → ℕ → ℝ) (i j : ℕ) : ℝ :=
  rsum n (fun a => rsum n (fun b => Hr n i a * K a b * Hr n b j))

/-- Modelled from the spec: the linear Gram matrix `A·Aᵀ` of an N × F real
matrix, written entrywise. -/
def gramR (f : ℕ) (A : ℕ → ℕ → ℝ) (i j : ℕ) : ℝ :=
  rsum f (fun k => A i k * A j k)

/-- Modelled from the spec: `HSIC(A, B)`, the sum of elementwise products of
the doubly-centered linear Gram matrices of A and B. -/
def hsicR (n fa fb : ℕ) (A B : ℕ → ℕ → ℝ) : ℝ :=
  rsum n (fun i => rsum n (fun j =>
    centerR n (gramR fa A) i j * centerR n (gramR fb B) i j))

/-- The formula claim C7 states for LinearCKA:
`HSIC(X,Y) / sqrt(HSIC(X,X) · HSIC(Y,Y))`. -/
def ckaSpec (n fa fb : ℕ) (A B : ℕ → ℕ → ℝ) : ℝ :=
  hsicR n fa fb A B / Real.sqrt (hsicR n fa fa A A * hsicR n fb fb B B)

/-- Modelled from claim C2's words: for each column `j` of the distance
matrix `d`, the fraction of the other N−1 rows of that column whose distance
exceeds the matched diagonal distance `d j j`; averaged over the N columns. -/
def rankAccuracyColumn (d : ℕ → ℕ → ℝ) (N : ℕ) : ℝ :=
  rsum N (fun j =>
    (((List.range N).filter (fun i => decide (¬ i = j ∧ d j j < d i j))).length : ℝ)
      / ((N : ℝ) - 1)) / (N : ℝ)

/-- The row-wise variant that the source actually computes: for each row `j`
of the distance matrix, the fraction of the other N−1 entries of that row
(the distances from X's row j to the non-matching rows of Y) exceeding the
diagonal entry `d j j`; averaged over the N rows. -/
def rankAccuracyRow (d : ℕ → ℕ → ℝ) (N : ℕ) : ℝ :=
  rsum N (fun j =>
    (((List.range N).filter (fun i => decide (¬ i = j ∧ d j j < d j i))).length : ℝ)
      / ((N : ℝ) - 1)) / (N : ℝ)

/-! ### Helper lemmas -/

theorem Fp.sum_map_val {α : Type} (l : List α) (f : α → ℝ) :
    Fp.sum (l.map (fun a => Fp.val (f a))) = .val ((l.map f).sum) := by
  induction l with
  | nil => simp [Fp.sum]
  | cons a l ih =>
      simp only [List.map_cons, List.sum_cons, Fp.sum, List.foldr_cons] at ih ⊢
      rw [ih, Fp.add]

theorem Fp.mean_singleton (x : Fp) : Fp.mean [x] = x := by
  cases x with
  | nan => rfl
  | val a => simp [Fp.mean, Fp.sum, Fp.add, Fp.div]

theorem Fp.gtb_self (x : Fp) : Fp.gtb x x = false := by
  cases x with
  | nan => rfl
  | val a => simp [Fp.gtb]

theorem mapM_ok {α : Type} (l : List α) (g : α → Except PyErr Fp) (s : α → Fp)
    (h : ∀ a ∈ l, g a = .ok (s a)) : l.mapM g = .ok (l.map s) := by
  induction l with
  | nil => rfl
  | cons a l ih =>
      rw [List.mapM_cons, h a (by simp)]
      rw [ih (fun b hb => h b (by simp [hb]))]
      rfl

theorem two_le_length_of_two_mem {α : Type} {l : List α} {a b : α}
    (ha : a ∈ l) (hb : b ∈ l) (hab : a ≠ b) : 2 ≤ l.length := by
  match l with
  | [] => cases ha
  | [x] =>
      simp only [List.mem_singleton] at ha hb
      exact absurd (ha.trans hb.symm) hab
  | x :: y :: l => simp [List.length_cons]

theorem map_getD_range {α : Type} (l : List α) (d : α) :
    (List.range l.length).map (fun i => l.getD i d) = l := by
  apply List.ext_getElem
  · simp
  · intro i h1 h2
    simp [List.getD_eq_getElem?_getD, List.getElem?_eq_getElem h2]

theorem reshape2_d1_col (v : List Fp) : (NDArray.d1 v).reshape2.col 0 = v := by
  simp only [NDArray.reshape2, Mat.col]
  exact map_getD_range v (.val 0)

theorem call_rows_ne (m : MetricImpl) (X Y : NDArray)
    (h : X.reshape2.rows ≠ Y.reshape2.rows) :
    Metric.call m X Y = .error .shapeError := by
  simp only [Metric.call]
  rw [if_pos h]

theorem call_cols_ne (m : MetricImpl) (X Y : NDArray)
    (h : X.reshape2.rows = Y.reshape2.rows)
    (hn : m.name ∉ geometryExempt) (hc : X.reshape2.cols ≠ Y.reshape2.cols) :
    Metric.call m X Y = .error .shapeError := by
  simp only [Metric.call]
  rw [if_neg (by simp [h]), if_pos ⟨hn, hc⟩]

theorem call_dispatch (m : MetricImpl) (X Y : NDArray)
    (h : X.reshape2.rows = Y.reshape2.rows)
    (h2 : ¬(m.name ∉ geometryExempt ∧ X.reshape2.cols ≠ Y.reshape2.cols)) :
    Metric.call m X Y = m.applyMetric X.reshape2 Y.reshape2 := by
  simp only [Metric.call]
  rw [if_neg (by simp [h]), if_neg h2]

theorem call_dispatch_cols_eq (m : MetricImpl) (X Y : NDArray)
    (h : X.reshape2.rows = Y.reshape2.rows)
    (hc : X.reshape2.cols = Y.reshape2.cols) :
    Metric.call m X Y = m.applyMetric X.reshape2 Y.reshape2 :=
  call_dispatch m X Y h (fun hx => hx.2 hc)

theorem call_dispatch_exempt (m : MetricImpl) (X Y : NDArray)
    (h : X.reshape2.rows = Y.reshape2.rows)
    (hn : m.name ∈ geometryExempt) :
    Metric.call m X Y = m.applyMetric X.reshape2 Y.reshape2 :=
  call_dispatch m X Y h (fun hx => hx.1 hn)

theorem vm_apply_func (score : List Fp → List Fp → Except PyErr Fp)
    (f : List Fp → Fp) (X Y : Mat) (scores : List Fp)
    (h : (List.range X.cols).mapM (fun i => score (X.col i) (Y.col i)) = .ok scores) :
    VectorMetric.applyMetric score (.pyFunc f) X Y = .ok (.scalar (f scores)) := by
  simp only [VectorMetric.applyMetric, h, PyObj.truthy, if_true]

theorem vm_apply_falsy (score : List Fp → List Fp → Except PyErr Fp)
    (r : PyObj) (X Y : Mat) (scores : List Fp) (hr : r.truthy = false)
    (h : (List.range X.cols).mapM (fun i => score (X.col i) (Y.col i)) = .ok scores) :
    VectorMetric.applyMetric score r X Y = .ok (.array scores) := by
  simp only [VectorMetric.applyMetric, h, hr]
  simp

theorem vm_apply_noncallable (score : List Fp → List Fp → Except PyErr Fp)
    (r : PyObj) (X Y : Mat) (scores : List Fp)
    (hr : r.truthy = true) (hc : r.callable = false)
    (h : (List.range X.cols).mapM (fun i => score (X.col i) (Y.col i)) = .ok scores) :
    VectorMetric.applyMetric score r X Y = .error .configError := by
  simp only [VectorMetric.applyMetric, h, hr, if_true]
  cases r with
  | pyFunc f => exact absurd hc (by simp [PyObj.callable])
  | pyNone => rfl
  | pyBool b => rfl
  | pyInt n => rfl
  | pyStr s => rfl

theorem vm_apply_err (score : List Fp → List Fp → Except PyErr Fp)
    (r : PyObj) (X Y : Mat) (e : PyErr)
    (h : (List.range X.cols).mapM (fun i => score (X.col i) (Y.col i)) = .error e) :
    VectorMetric.applyMetric score r X Y = .error e := by
  simp only [VectorMetric.applyMetric, h]

theorem pearsonr_ok (x y : List Fp) (hl : x.length = y.length)
    (h2 : 2 ≤ x.length) : ∃ s, pearsonr x y = .ok s := by
  simp only [pearsonr]
  rw [if_neg (fun h => h hl), if_neg (by omega)]
  by_cases hA : (hasNan x || hasNan y) = true
  · exact ⟨.nan, by rw [if_pos hA]⟩
  · rw [if_neg hA]
    by_cases hB : (isConst (toReals x) || isConst (toReals y)) = true
    · exact ⟨.nan, by rw [if_pos hB]⟩
    · exact ⟨_, by rw [if_neg hB]⟩

theorem isConst_of_all_zero (l : List ℝ) (h : ∀ a ∈ l, a = 0) :
    isConst l = true := by
  simp only [isConst, List.all_eq_true]
  intro a ha
  cases l with
  | nil => cases ha
  | cons b t =>
      simp only [List.headD_cons]
      rw [h a ha, h b (List.mem_cons_self b t)]
      simp

theorem toReals_all_zero (x : List Fp) (hx : ∀ a ∈ x, a = .val 0) :
    ∀ a ∈ toReals x, a = 0 := by
  intro a ha
  simp only [toReals, List.mem_map] at ha
  obtain ⟨b, hb, hba⟩ := ha
  rw [hx b hb] at hba
  exact hba.symm

theorem hasNan_all_zero (x : List Fp) (hx : ∀ a ∈ x, a = .val 0) :
    hasNan x = false := by
  simp only [hasNan, List.any_eq_false]
  intro a ha
  rw [hx a ha]
  simp [Fp.isNan]

theorem pearsonr_zero_nan (x y : List Fp)
    (hx : ∀ a ∈ x, a = .val 0) (hy : ∀ a ∈ y, a = .val 0)
    (hl : x.length = y.length) (h2 : 2 ≤ x.length) :
    pearsonr x y = .ok .nan := by
  simp only [pearsonr]
  rw [if_neg (fun h => h hl), if_neg (by omega)]
  rw [if_neg (by rw [hasNan_all_zero x hx, hasNan_all_zero y hy]; simp)]
  rw [if_pos (by rw [isConst_of_all_zero _ (toReals_all_zero x hx)]; simp)]

theorem pearson_call_d1 (u v : List Fp) (hl : u.length = v.length)
    (h2 : 2 ≤ u.length) :
    ∃ s, Metric.call PearsonRDefault (.d1 u) (.d1 v) = .ok (.scalar s) := by
  obtain ⟨s, hs⟩ := pearsonr_ok u v hl h2
  refine ⟨Fp.mean [s], ?_⟩
  rw [call_dispatch_cols_eq PearsonRDefault (.d1 u) (.d1 v)
    (by simp [NDArray.reshape2, hl]) (by rfl)]
  show VectorMetric.applyMetric pearsonr defaultReduction _ _ = _
  rw [show defaultReduction = PyObj.pyFunc Fp.mean from rfl]
  apply vm_apply_func
  show List.mapM _ (List.range 1) = _
  rw [show List.range 1 = [0] from rfl]
  rw [mapM_ok [0] _ (fun _ => s) ?_]
  · rfl
  · intro a ha
    rw [List.mem_singleton] at ha
    subst ha
    rw [reshape2_d1_col u, reshape2_d1_col v]
    exact hs

theorem pearson_call_d1_zero (u v : List Fp)
    (hu : ∀ a ∈ u, a = .val 0) (hv : ∀ a ∈ v, a = .val 0)
    (hl : u.length = v.length) (h2 : 2 ≤ u.length) :
    Metric.call PearsonRDefault (.d1 u) (.d1 v) = .ok (.scalar .nan) := by
  rw [call_dispatch_cols_eq PearsonRDefault (.d1 u) (.d1 v)
    (by simp [NDArray.reshape2, hl]) (by rfl)]
  show VectorMetric.applyMetric pearsonr defaultReduction _ _ = _
  rw [show defaultReduction = PyObj.pyFunc Fp.mean from rfl]
  rw [vm_apply_func pearsonr Fp.mean _ _ [.nan] ?_]
  · rw [Fp.mean_singleton]
  · show List.mapM _ (List.range 1) = _
    rw [show List.range 1 = [0] from rfl]
    rw [mapM_ok [0] _ (fun _ => .nan) ?_]
    · rfl
    · intro a ha
      rw [List.mem_singleton] at ha
      subst ha
      rw [reshape2_d1_col u, reshape2_d1_col v]
      exact pearsonr_zero_nan u v hu hv hl h2

theorem mem_triuIndices (n a b : ℕ) (hb : b < n) (hab : a < b) :
    (a, b) ∈ triuIndices n := by
  simp only [triuIndices, List.mem_flatMap]
  refine ⟨a, List.mem_range.2 (lt_trans hab hb), ?_⟩
  simp only [List.mem_map, List.mem_filter, List.mem_range]
  exact ⟨b, ⟨hb, by simp [hab]⟩, rfl⟩

theorem two_le_triu_length (n : ℕ) (h : 3 ≤ n) :
    2 ≤ (triuIndices n).length :=
  two_le_length_of_two_mem (mem_triuIndices n 0 1 (by omega) (by omega))
    (mem_triuIndices n 0 2 (by omega) (by omega)) (by simp)

theorem rs_apply (dist : List Fp → List Fp → Fp)
    (comp : NDArray → NDArray → Except PyErr PyVal) (X Y : Mat) :
    RepresentationalSimilarity.score dist comp X Y =
      comp
        (.d1 (triuVec X.rows (if X.cols = 1 ∨ Y.cols = 1 then
          nansub (pairwise_distances1 dist X) else pairwise_distances1 dist X)))
        (.d1 (triuVec X.rows (if X.cols = 1 ∨ Y.cols = 1 then
          nansub (pairwise_distances1 dist Y) else pairwise_distances1 dist Y))) := rfl

theorem row_of_one_col (X : Mat) (h : X.cols = 1) (i : ℕ) :
    X.row i = [X.entry i 0] := by
  simp only [Mat.row, h]
  rw [show List.range 1 = [0] from rfl]
  rfl

theorem correlationDist_singleton (a b : Fp) :
    correlationDist [a] [b] = .nan := by
  cases a with
  | nan => simp [correlationDist, hasNan, Fp.isNan]
  | val x =>
      cases b with
      | nan => simp [correlationDist, hasNan, Fp.isNan]
      | val y =>
          simp only [correlationDist, hasNan, List.any_cons, List.any_nil,
            Fp.isNan, Bool.or_false, Bool.false_or, Bool.or_self, if_false,
            Bool.false_eq_true, toReals, List.map_cons, List.map_nil]
          norm_num

theorem pairwise1_corr_onecol (X : Mat) (hx : X.cols = 1) (i j : ℕ) :
    pairwise_distances1 correlationDist X i j = .nan := by
  simp only [pairwise_distances1]
  rw [row_of_one_col X hx i, row_of_one_col X hx j]
  exact correlationDist_singleton _ _

theorem triuVec_nansub_onecol (X : Mat) (hx : X.cols = 1) (n : ℕ) :
    triuVec n (nansub (pairwise_distances1 correlationDist X)) =
      (triuIndices n).map (fun _ => .val 0) := by
  apply List.map_congr_left
  intro p hp
  simp only [nansub, pairwise1_corr_onecol X hx]

theorem rs_default_onecol (X Y : Mat) (hx : X.cols = 1) (hy : Y.cols = 1)
    (hr : X.rows = Y.rows) (h3 : 3 ≤ X.rows) :
    Metric.call RSDefault (.d2 X) (.d2 Y) = .ok (.scalar .nan) := by
  rw [call_dispatch_exempt RSDefault (.d2 X) (.d2 Y)
    (by simpa [NDArray.reshape2] using hr) (by simp [RSDefault, RSMetric, geometryExempt])]
  show RepresentationalSimilarity.score correlationDist
    (Metric.call PearsonRDefault) X Y = _
  rw [rs_apply]
  rw [if_pos (Or.inl hx), if_pos (Or.inl hx)]
  rw [triuVec_nansub_onecol X hx, triuVec_nansub_onecol Y hy]
  apply pearson_call_d1_zero
  · intro a ha
    rw [List.mem_map] at ha
    obtain ⟨p, hp, hpa⟩ := ha
    exact hpa.symm
  · intro a ha
    rw [List.mem_map] at ha
    obtain ⟨p, hp, hpa⟩ := ha
    exact hpa.symm
  · simp
  · simpa using two_le_triu_length X.rows h3

theorem colScore_val (dist : List Fp → List Fp → Fp) (X Y : Mat) (N : ℕ)
    (d : ℕ → ℕ → ℝ) (hy : Y.rows = N) (h2 : 2 ≤ N)
    (hd : ∀ i j, i < N → j < N → dist (X.row i) (Y.row j) = .val (d i j))
    (j : ℕ) (hj : j < N) :
    RankAccuracy.colScore dist X Y j =
      .val ((((List.range N).filter
        (fun i => decide (¬ i = j ∧ d j j < d j i))).length : ℝ) / ((N : ℝ) - 1)) := by
  have hN1 : ((N : ℝ) - 1) ≠ 0 := by
    have : (2 : ℝ) ≤ (N : ℝ) := by exact_mod_cast h2
    linarith
  simp only [RankAccuracy.colScore, pairwise_distances2, hy]
  rw [List.filter_congr (fun i hi => ?_)]
  · rw [Fp.div, if_neg hN1]
  · rw [List.mem_range] at hi
    rw [hd j i hj hi, hd j j hj hj]
    by_cases hij : i = j
    · subst hij
      simp [Fp.gtb]
    · simp [Fp.gtb, hij]

theorem rankAccuracy_call (dist : List Fp → List Fp → Fp) (X Y : Mat) (N : ℕ)
    (d : ℕ → ℕ → ℝ) (hx : X.rows = N) (hy : Y.rows = N) (hc : X.cols = Y.cols)
    (h2 : 2 ≤ N)
    (hd : ∀ i j, i < N → j < N → dist (X.row i) (Y.row j) = .val (d i j)) :
    Metric.call (RankAccuracyMetric dist) (.d2 X) (.d2 Y) =
      .ok (.scalar (.val (rankAccuracyRow d N))) := by
  have hN0 : ((N : ℝ)) ≠ 0 := by
    have : (2 : ℝ) ≤ (N : ℝ) := by exact_mod_cast h2
    linarith
  rw [call_dispatch_cols_eq (RankAccuracyMetric dist) (.d2 X) (.d2 Y)
    (by simpa [NDArray.reshape2] using hx.trans hy.symm) hc]
  show RankAccuracy.score dist X Y = _
  simp only [RankAccuracy.score, hx]
  rw [List.map_congr_left (fun j hj =>
    colScore_val dist X Y N d hy h2 hd j (List.mem_range.1 hj))]
  rw [Fp.mean, Fp.sum_map_val, List.length_map, List.length_range]
  rw [Fp.div, if_neg (by exact_mod_cast hN0)]
  rfl

theorem rankAccuracy_one_sample (dist : List Fp → List Fp → Fp) (X Y : Mat)
    (hx : X.rows = 1) (hy : Y.rows = 1) (hc : X.cols = Y.cols) :
    Metric.call (RankAccuracyMetric dist) (.d2 X) (.d2 Y) =
      .ok (.scalar .nan) := by
  rw [call_dispatch_cols_eq (RankAccuracyMetric dist) (.d2 X) (.d2 Y)
    (by simpa [NDArray.reshape2] using hx.trans hy.symm) hc]
  show RankAccuracy.score dist X Y = _
  simp only [RankAccuracy.score, hx]
  rw [show List.range 1 = [0] from rfl]
  have hcol : RankAccuracy.colScore dist X Y 0 = .nan := by
    simp only [RankAccuracy.colScore, hy]
    rw [show List.range 1 = [0] from rfl]
    rw [List.filter_cons, List.filter_nil]
    rw [Fp.gtb_self]
    simp only [Bool.false_eq_true, if_false, List.length_nil]
    rw [Fp.div]
    norm_num
  rw [List.map_cons, List.map_nil, hcol, Fp.mean_singleton]

theorem rsum_eq_sum_range (n : ℕ) (f : ℕ → ℝ) :
    rsum n f = ∑ i ∈ Finset.range n, f i := by
  induction n with
  | zero => simp [rsum]
  | succ m ih =>
      rw [rsum, List.range_succ, List.map_append, List.sum_append,
        Finset.sum_range_succ, ← rsum, ih]
      simp

theorem rsum_nonneg (n : ℕ) (f : ℕ → ℝ) (h : ∀ i, i < n → 0 ≤ f i) :
    0 ≤ rsum n f := by
  rw [rsum_eq_sum_range]
  exact Finset.sum_nonneg (fun i hi => h i (Finset.mem_range.1 hi))

theorem hsicR_self_nonneg (n f : ℕ) (A : ℕ → ℕ → ℝ) :
    0 ≤ hsicR n f f A A := by
  apply rsum_nonneg
  intro i _
  apply rsum_nonneg
  intro j _
  exact mul_self_nonneg _

theorem Fp.zero_add (x : Fp) : Fp.add (.val 0) x = x := by
  cases x with
  | nan => rfl
  | val a => simp [Fp.add]

theorem Fp.sum_append (xs ys : List Fp) :
    Fp.sum (xs ++ ys) = Fp.add (Fp.sum xs) (Fp.sum ys) := by
  induction xs with
  | nil => simp [Fp.sum, Fp.zero_add]
  | cons a t ih =>
      simp only [List.cons_append, Fp.sum, List.foldr_cons] at ih ⊢
      rw [ih]
      cases a with
      | nan => rfl
      | val x =>
          cases hFt : (t ++ ys).foldr Fp.add (Fp.val 0) <;>
            cases hF1 : t.foldr Fp.add (Fp.val 0) <;>
            cases hF2 : ys.foldr Fp.add (Fp.val 0) <;>
            (simp_all [Fp.add]; try ring)

theorem Fp.sum_flatMap_val (l1 : List ℕ) (l2 : ℕ → List ℕ) (F : ℕ → ℕ → ℝ) :
    Fp.sum (l1.flatMap (fun i => (l2 i).map (fun j => Fp.val (F i j)))) =
      .val ((l1.map (fun i => ((l2 i).map (F i)).sum)).sum) := by
  induction l1 with
  | nil => simp [Fp.sum]
  | cons a t ih =>
      rw [List.flatMap_cons, Fp.sum_append, ih, Fp.sum_map_val]
      rw [List.map_cons, List.sum_cons, Fp.add]

theorem matmul_ofReal (r c c2 : ℕ) (f g : ℕ → ℕ → ℝ) :
    matmul (Mat.ofReal r c f) (Mat.ofReal c c2 g) =
      Mat.ofReal r c2 (fun i j => rsum c (fun k => f i k * g k j)) := by
  simp only [matmul, Mat.ofReal]
  congr 1
  funext i j
  calc Fp.sum ((List.range c).map (fun k => Fp.mul (.val (f i k)) (.val (g k j))))
      = Fp.sum ((List.range c).map (fun k => Fp.val (f i k * g k j))) := rfl
    _ = .val (((List.range c).map (fun k => f i k * g k j)).sum) := Fp.sum_map_val _ _
    _ = .val (rsum c (fun k => f i k * g k j)) := rfl

theorem gram_ofReal (n f : ℕ) (A : ℕ → ℕ → ℝ) :
    matmul (Mat.ofReal n f A) (Mat.ofReal n f A).transpose =
      Mat.ofReal n n (gramR f A) := by
  rw [show (Mat.ofReal n f A).transpose = Mat.ofReal f n (fun i j => A j i) from rfl]
  rw [matmul_ofReal]
  rfl

theorem centerH_ofReal (n : ℕ) (hn : 0 < n) :
    LinearCKA.centerH n = Mat.ofReal n n (Hr n) := by
  have hne : ((n : ℝ)) ≠ 0 := Nat.cast_ne_zero.2 hn.ne'
  simp only [LinearCKA.centerH, Mat.ofReal, Hr]
  congr 1
  funext i j
  rw [Fp.div, if_neg hne]
  by_cases hij : i = j
  · rw [if_pos hij, if_pos hij, Fp.sub]
  · rw [if_neg hij, if_neg hij, Fp.sub]

theorem center_ofReal (n : ℕ) (hn : 0 < n) (g : ℕ → ℕ → ℝ) :
    LinearCKA.center (Mat.ofReal n n g) = Mat.ofReal n n (centerR n g) := by
  simp only [LinearCKA.center]
  rw [show (Mat.ofReal n n g).rows = n from rfl, centerH_ofReal n hn,
    matmul_ofReal, matmul_ofReal]
  congr 1
  funext i j
  show rsum n (fun k => (rsum n (fun b => Hr n i b * g b k)) * Hr n k j) = centerR n g i j
  rw [centerR]
  simp only [rsum_eq_sum_range]
  calc ∑ k ∈ Finset.range n, (∑ b ∈ Finset.range n, Hr n i b * g b k) * Hr n k j
      = ∑ k ∈ Finset.range n, ∑ b ∈ Finset.range n, Hr n i b * g b k * Hr n k j := by
        refine Finset.sum_congr rfl (fun k _ => ?_)
        rw [Finset.sum_mul]
    _ = ∑ b ∈ Finset.range n, ∑ k ∈ Finset.range n, Hr n i b * g b k * Hr n k j :=
        Finset.sum_comm

theorem HSIC_ofReal (n fa fb : ℕ) (hn : 0 < n) (A B : ℕ → ℕ → ℝ) :
    LinearCKA.HSIC (Mat.ofReal n fa A) (Mat.ofReal n fb B) =
      .val (hsicR n fa fb A B) := by
  simp only [LinearCKA.HSIC]
  rw [gram_ofReal, gram_ofReal, center_ofReal n hn, center_ofReal n hn]
  show Fp.sum ((List.range n).flatMap (fun i => (List.range n).map (fun j =>
    Fp.val (centerR n (gramR fa A) i j * centerR n (gramR fb B) i j)))) = _
  rw [Fp.sum_flatMap_val]
  rfl

theorem cka_call (n fx fy : ℕ) (A B : ℕ → ℕ → ℝ)
    (hXX : hsicR n fx fx A A ≠ 0) (hYY : hsicR n fy fy B B ≠ 0) :
    Metric.call LinearCKAMetric
      (.d2 (Mat.ofReal n fx A)) (.d2 (Mat.ofReal n fy B)) =
      .ok (.scalar (.val (ckaSpec n fx fy A B))) := by
  have hn : 0 < n := by
    rcases Nat.eq_zero_or_pos n with h0 | h
    · exact absurd (by simp [hsicR, rsum, h0]) hXX
    · exact h
  have hXXpos : 0 < hsicR n fx fx A A := (hsicR_self_nonneg n fx A).lt_of_ne (Ne.symm hXX)
  have hYYpos : 0 < hsicR n fy fy B B := (hsicR_self_nonneg n fy B).lt_of_ne (Ne.symm hYY)
  rw [call_dispatch_exempt LinearCKAMetric (.d2 (Mat.ofReal n fx A))
    (.d2 (Mat.ofReal n fy B)) rfl (by simp [LinearCKAMetric, geometryExempt])]
  show LinearCKA.score (Mat.ofReal n fx A) (Mat.ofReal n fy B) = _
  simp only [LinearCKA.score]
  rw [HSIC_ofReal n fx fy hn, HSIC_ofReal n fx fx hn, HSIC_ofReal n fy fy hn]
  rw [show Fp.sqrt (.val (hsicR n fx fx A A)) = .val (Real.sqrt (hsicR n fx fx A A)) from rfl]
  rw [show Fp.sqrt (.val (hsicR n fy fy B B)) = .val (Real.sqrt (hsicR n fy fy B B)) from rfl]
  rw [show Fp.mul (.val (Real.sqrt (hsicR n fx fx A A))) (.val (Real.sqrt (hsicR n fy fy B B)))
    = .val (Real.sqrt (hsicR n fx fx A A) * Real.sqrt (hsicR n fy fy B B)) from rfl]
  have hden : Real.sqrt (hsicR n fx fx A A) * Real.sqrt (hsicR n fy fy B B) ≠ 0 :=
    (mul_pos (Real.sqrt_pos.2 hXXpos) (Real.sqrt_pos.2 hYYpos)).ne'
  rw [Fp.div, if_neg hden]
  rw [ckaSpec, Real.sqrt_mul (hsicR_self_nonneg n fx A)]

theorem pearsonr_short (x y : List Fp) (hl : x.length = y.length)
    (h2 : x.length < 2) : pearsonr x y = .error .valueError := by
  simp only [pearsonr]
  rw [if_neg (fun h => h hl), if_pos h2]

theorem pearson_call_d1_short (u v : List Fp) (hl : u.length = v.length)
    (h2 : u.length < 2) :
    Metric.call PearsonRDefault (.d1 u) (.d1 v) = .error .valueError := by
  rw [call_dispatch_cols_eq PearsonRDefault (.d1 u) (.d1 v)
    (by simp [NDArray.reshape2, hl]) (by rfl)]
  show VectorMetric.applyMetric pearsonr defaultReduction _ _ = _
  apply vm_apply_err
  show List.mapM _ (List.range 1) = _
  rw [show List.range 1 = [0] from rfl]
  rw [List.mapM_cons]
  rw [reshape2_d1_col u, reshape2_d1_col v, pearsonr_short u v hl h2]
  rfl

theorem rs_default_two_rows (X Y : Mat) (hx : X.rows = 2) (hy : Y.rows = 2) :
    Metric.call RSDefault (.d2 X) (.d2 Y) = .error .valueError := by
  rw [call_dispatch_exempt RSDefault (.d2 X) (.d2 Y)
    (by simpa [NDArray.reshape2] using hx.trans hy.symm)
    (by simp [RSDefault, RSMetric, geometryExempt])]
  show RepresentationalSimilarity.score correlationDist
    (Metric.call PearsonRDefault) X Y = _
  rw [rs_apply, hx]
  by_cases h1 : X.cols = 1 ∨ Y.cols = 1
  · rw [if_pos h1, if_pos h1]
    exact pearson_call_d1_short _ _ (by simp [triuVec])
      (by simp [triuVec]; rw [show triuIndices 2 = [(0, 1)] from rfl]; simp)
  · rw [if_neg h1, if_neg h1]
    exact pearson_call_d1_short _ _ (by simp [triuVec])
      (by simp [triuVec]; rw [show triuIndices 2 = [(0, 1)] from rfl]; simp)

theorem rs_default_ok (X Y : Mat) (hr : X.rows = Y.rows) (h3 : 3 ≤ X.rows) :
    ∃ s, Metric.call RSDefault (.d2 X) (.d2 Y) = .ok (.scalar s) := by
  have hd : Metric.call RSDefault (.d2 X) (.d2 Y) =
      RepresentationalSimilarity.score correlationDist
        (Metric.call PearsonRDefault) X Y :=
    call_dispatch_exempt RSDefault (.d2 X) (.d2 Y)
      (by simpa [NDArray.reshape2] using hr)
      (by simp [RSDefault, RSMetric, geometryExempt])
  by_cases h1 : X.cols = 1 ∨ Y.cols = 1
  · obtain ⟨s, hs⟩ := pearson_call_d1
      (triuVec X.rows (nansub (pairwise_distances1 correlationDist X)))
      (triuVec X.rows (nansub (pairwise_distances1 correlationDist Y)))
      (by simp [triuVec]) (by simpa [triuVec] using two_le_triu_length X.rows h3)
    exact ⟨s, by rw [hd, rs_apply, if_pos h1, if_pos h1]; exact hs⟩
  · obtain ⟨s, hs⟩ := pearson_call_d1
      (triuVec X.rows (pairwise_distances1 correlationDist X))
      (triuVec X.rows (pairwise_distances1 correlationDist Y))
      (by simp [triuVec]) (by simpa [triuVec] using two_le_triu_length X.rows h3)
    exact ⟨s, by rw [hd, rs_apply, if_neg h1, if_neg h1]; exact hs⟩

theorem euclidean_single (a b : ℝ) :
    euclidean [.val a] [.val b] = .val |a - b| := by
  simp only [euclidean, hasNan, List.any_cons, List.any_nil, Fp.isNan,
    Bool.or_self, Bool.or_false, Bool.false_eq_true, if_false, toReals,
    List.map_cons, List.map_nil, List.zip_cons_cons, List.zip_nil_right,
    List.sum_cons, List.sum_nil]
  rw [show (a - b) ^ 2 + 0 = (a - b) ^ 2 by ring, Real.sqrt_sq_eq_abs]

/-! ### Concrete inputs used by witnesses and counterexamples -/

def mat10x3 : Mat := ⟨10, 3, fun i j => .val (i + j)⟩

def mat10x4 : Mat := ⟨10, 4, fun i j => .val (i * j)⟩

def mat12x3 : Mat := ⟨12, 3, fun _ _ => .val 0⟩

def mat2x3 : Mat := ⟨2, 3, fun i j => .val (i + j)⟩

def mat2x4 : Mat := ⟨2, 4, fun i j => .val (i + j)⟩

def mat3x1a : Mat := ⟨3, 1, fun i _ => .val i⟩

def mat3x1b : Mat := ⟨3, 1, fun i _ => .val (2 * i)⟩

def mat1x1 : Mat := ⟨1, 1, fun _ _ => .val 5⟩

def mat4x3 : Mat := ⟨4, 3, fun _ _ => .val 1⟩

def mat2x1z : Mat := ⟨2, 1, fun _ _ => .val 0⟩

/-- X input of the RankAccuracy orientation counterexample: rows 0 and 10. -/
def Xc2 : Mat := ⟨2, 1, fun i _ => if i = 0 then .val 0 else .val 10⟩

/-- Y input of the RankAccuracy orientation counterexample: rows 0 and 1. -/
def Yc2 : Mat := ⟨2, 1, fun i _ => if i = 0 then .val 0 else .val 1⟩

/-- The Euclidean distance matrix between the rows of `Xc2` and `Yc2`. -/
def dc2 : ℕ → ℕ → ℝ := fun i j =>
  if i = 0 then (if j = 0 then 0 else 1) else (if j = 0 then 10 else 9)

/-- A 2 × 1 real input with nonzero self-HSIC, for the CKA witness. -/
def cw : ℕ → ℕ → ℝ := fun i _ => if i = 0 then 0 else 1

theorem hsic_cw : hsicR 2 1 1 cw cw = 1 / 4 := by
  norm_num [hsicR, centerR, gramR, Hr, cw, rsum_eq_sum_range,
    Finset.sum_range_succ, Finset.sum_range_zero]

/-! ### The claims -/

/-- Claim C8: whenever the sample counts (first dimension, after 1-D inputs
are normalized to single-column 2-D form) of the two inputs differ, every
metric — whatever its name and whatever its scoring routine — raises
ShapeError.  The result does not depend on the scoring routine at all, so
the error is raised eagerly, before any scoring runs, with no partial
result. -/
theorem claim_C8 (m : MetricImpl) (X Y : NDArray)
    (h : X.reshape2.rows ≠ Y.reshape2.rows) :
    Metric.call m X Y = .error .shapeError :=
  call_rows_ne m X Y h

/-- Witness for C8 at the spec's scenario: X of shape (10, 3), Y of shape
(12, 3), under the RankAccuracy metric. -/
theorem claim_C8_witness :
    (NDArray.d2 mat10x3).reshape2.rows ≠ (NDArray.d2 mat12x3).reshape2.rows ∧
    Metric.call (RankAccuracyMetric euclidean) (.d2 mat10x3) (.d2 mat12x3) =
      .error .shapeError :=
  ⟨by decide, claim_C8 (RankAccuracyMetric euclidean) _ _ (by decide)⟩

/-- Claim C5: a per-dimension metric called on two F-column inputs computes
one score per column, score i being the metric's scoring function applied to
column i of X and column i of Y; with a configured (callable) reduction the
result is the reduction applied to the length-F score sequence, and with no
reduction the result is the full length-F sequence. -/
theorem claim_C5 (name : String) (score : List Fp → List Fp → Except PyErr Fp)
    (X Y : Mat) (s : ℕ → Fp) (f : List Fp → Fp)
    (hr : X.rows = Y.rows) (hc : X.cols = Y.cols)
    (hs : ∀ i, i < X.cols → score (X.col i) (Y.col i) = .ok (s i)) :
    Metric.call (mkVectorMetric name score (.pyFunc f)) (.d2 X) (.d2 Y) =
      .ok (.scalar (f ((List.range X.cols).map s))) ∧
    Metric.call (mkVectorMetric name score .pyNone) (.d2 X) (.d2 Y) =
      .ok (.array ((List.range X.cols).map s)) := by
  have hm : (List.range X.cols).mapM (fun i => score (X.col i) (Y.col i)) =
      .ok ((List.range X.cols).map s) :=
    mapM_ok _ _ _ (fun i hi => hs i (List.mem_range.1 hi))
  constructor
  · rw [call_dispatch_cols_eq (mkVectorMetric name score (.pyFunc f))
      (.d2 X) (.d2 Y) hr hc]
    exact vm_apply_func score f X Y _ hm
  · rw [call_dispatch_cols_eq (mkVectorMetric name score .pyNone)
      (.d2 X) (.d2 Y) hr hc]
    exact vm_apply_falsy score .pyNone X Y _ rfl hm

/-- Witness for C5 on (4, 3) inputs with a constant per-column score. -/
theorem claim_C5_witness :
    Metric.call (mkVectorMetric "RMSE" (fun _ _ => .ok (.val 2)) (.pyFunc Fp.mean))
      (.d2 mat4x3) (.d2 mat4x3) =
      .ok (.scalar (Fp.mean ((List.range 3).map (fun _ => Fp.val 2)))) ∧
    Metric.call (mkVectorMetric "RMSE" (fun _ _ => .ok (.val 2)) .pyNone)
      (.d2 mat4x3) (.d2 mat4x3) =
      .ok (.array ((List.range 3).map (fun _ => Fp.val 2))) :=
  claim_C5 "RMSE" (fun _ _ => .ok (.val 2)) mat4x3 mat4x3 (fun _ => .val 2)
    Fp.mean rfl rfl (fun _ _ => rfl)

/-- Claim C6: construction of a per-dimension metric never validates the
reduction (in this model the constructor `mkVectorMetric` is a total
function, as `VectorMetric.__init__` only stores the value); calling the
metric with a truthy non-callable reduction raises the configuration error
(a TypeError) at call time, after the per-column scores are computed, and no
score is returned. -/
theorem claim_C6 (name : String) (score : List Fp → List Fp → Except PyErr Fp)
    (X Y : Mat) (s : ℕ → Fp) (r : PyObj)
    (hr : X.rows = Y.rows) (hc : X.cols = Y.cols)
    (ht : r.truthy = true) (hcall : r.callable = false)
    (hs : ∀ i, i < X.cols → score (X.col i) (Y.col i) = .ok (s i)) :
    Metric.call (mkVectorMetric name score r) (.d2 X) (.d2 Y) =
      .error .configError := by
  rw [call_dispatch_cols_eq (mkVectorMetric name score r) (.d2 X) (.d2 Y) hr hc]
  exact vm_apply_noncallable score r X Y _ ht hcall
    (mapM_ok _ _ _ (fun i hi => hs i (List.mem_range.1 hi)))

/-- Witness for C6 with the truthy non-callable reduction value "mean". -/
theorem claim_C6_witness :
    (PyObj.pyStr "mean").truthy = true ∧ (PyObj.pyStr "mean").callable = false ∧
    Metric.call (mkVectorMetric "PearsonR" (fun _ _ => .ok (.val 0)) (.pyStr "mean"))
      (.d2 mat4x3) (.d2 mat4x3) = .error .configError :=
  ⟨by decide, by decide,
    claim_C6 "PearsonR" (fun _ _ => .ok (.val 0)) mat4x3 mat4x3 (fun _ => .val 0)
      (.pyStr "mean") rfl rfl (by decide) (by decide) (fun _ _ => rfl)⟩

/-- Claim C9: a falsy non-callable reduction value (None, 0, False, the
empty string) makes `if self._reduction:` skip the callability check
entirely: the call does not raise, and the raw per-column score sequence is
returned, exactly as for the no-reduction (None) configuration. -/
theorem claim_C9 (name : String) (score : List Fp → List Fp → Except PyErr Fp)
    (X Y : Mat) (s : ℕ → Fp) (r : PyObj)
    (hr : X.rows = Y.rows) (hc : X.cols = Y.cols)
    (hf : r.truthy = false)
    (hs : ∀ i, i < X.cols → score (X.col i) (Y.col i) = .ok (s i)) :
    Metric.call (mkVectorMetric name score r) (.d2 X) (.d2 Y) =
      .ok (.array ((List.range X.cols).map s)) ∧
    Metric.call (mkVectorMetric name score r) (.d2 X) (.d2 Y) =
      Metric.call (mkVectorMetric name score .pyNone) (.d2 X) (.d2 Y) := by
  have hm : (List.range X.cols).mapM (fun i => score (X.col i) (Y.col i)) =
      .ok ((List.range X.cols).map s) :=
    mapM_ok _ _ _ (fun i hi => hs i (List.mem_range.1 hi))
  have h1 : Metric.call (mkVectorMetric name score r) (.d2 X) (.d2 Y) =
      .ok (.array ((List.range X.cols).map s)) := by
    rw [call_dispatch_cols_eq (mkVectorMetric name score r) (.d2 X) (.d2 Y) hr hc]
    exact vm_apply_falsy score r X Y _ hf hm
  refine ⟨h1, h1.trans ?_⟩
  rw [call_dispatch_cols_eq (mkVectorMetric name score .pyNone) (.d2 X) (.d2 Y) hr hc]
  exact (vm_apply_falsy score .pyNone X Y _ rfl hm).symm

/-- Witness for C9 with the falsy non-callable reduction value 0. -/
theorem claim_C9_witness :
    (PyObj.pyInt 0).truthy = false ∧
    Metric.call (mkVectorMetric "PearsonR" (fun _ _ => .ok (.val 0)) (.pyInt 0))
      (.d2 mat4x3) (.d2 mat4x3) =
      .ok (.array ((List.range 3).map (fun _ => Fp.val 0))) :=
  ⟨by decide,
    (claim_C9 "PearsonR" (fun _ _ => .ok (.val 0)) mat4x3 mat4x3 (fun _ => .val 0)
      (.pyInt 0) rfl rfl (by decide) (fun _ _ => rfl)).1⟩

/-- Claim C10: with exactly one sample (and equal feature counts, so that
validation passes), RankAccuracy divides the per-column count by
N − 1 = 0; the division is unguarded, and the call returns NaN — not a
well-defined fraction in [0, 1] — for every configured distance. -/
theorem claim_C10 (dist : List Fp → List Fp → Fp) (X Y : Mat)
    (hx : X.rows = 1) (hy : Y.rows = 1) (hc : X.cols = Y.cols) :
    Metric.call (RankAccuracyMetric dist) (.d2 X) (.d2 Y) =
      .ok (.scalar .nan) :=
  rankAccuracy_one_sample dist X Y hx hy hc

/-- Witness for C10 at a concrete (1, 1) input under Euclidean distance. -/
theorem claim_C10_witness :
    mat1x1.rows = 1 ∧
    Metric.call (RankAccuracyMetric euclidean) (.d2 mat1x1) (.d2 mat1x1) =
      .ok (.scalar .nan) :=
  ⟨rfl, claim_C10 euclidean mat1x1 mat1x1 rfl rfl rfl⟩

/-- Claim C4: RepresentationalSimilarity performs its NaN-to-zero
substitution exactly when at least one input has exactly one column: in that
case the comparison receives the zero-substituted dissimilarity vectors, and
whenever both inputs have two or more columns the dissimilarity entries
(NaN included) are passed to the inner comparison unmodified. -/
theorem claim_C4 (dist : List Fp → List Fp → Fp)
    (comp : NDArray → NDArray → Except PyErr PyVal) (X Y : Mat)
    (hr : X.rows = Y.rows) :
    ((X.cols = 1 ∨ Y.cols = 1) →
      Metric.call (RSMetric dist comp) (.d2 X) (.d2 Y) =
        comp (.d1 (triuVec X.rows (nansub (pairwise_distances1 dist X))))
          (.d1 (triuVec X.rows (nansub (pairwise_distances1 dist Y))))) ∧
    (2 ≤ X.cols → 2 ≤ Y.cols →
      Metric.call (RSMetric dist comp) (.d2 X) (.d2 Y) =
        comp (.d1 (triuVec X.rows (pairwise_distances1 dist X)))
          (.d1 (triuVec X.rows (pairwise_distances1 dist Y)))) := by
  have hdisp : Metric.call (RSMetric dist comp) (.d2 X) (.d2 Y) =
      RepresentationalSimilarity.score dist comp X Y :=
    call_dispatch_exempt (RSMetric dist comp) (.d2 X) (.d2 Y) hr
      (by simp [RSMetric, geometryExempt])
  constructor
  · intro h1
    rw [hdisp, rs_apply, if_pos h1, if_pos h1]
  · intro h2x h2y
    have hne : ¬(X.cols = 1 ∨ Y.cols = 1) := by omega
    rw [hdisp, rs_apply, if_neg hne, if_neg hne]

/-- Witness for C4: on (2, 3) inputs (both with at least two columns) and a
distance that always produces NaN, the NaN entries reach the inner
comparison unmodified. -/
theorem claim_C4_witness :
    Metric.call (RSMetric (fun _ _ => Fp.nan) (fun _ _ => .ok (.scalar (.val 7))))
      (.d2 mat2x3) (.d2 mat2x3) = .ok (.scalar (.val 7)) :=
  (claim_C4 (fun _ _ => Fp.nan) (fun _ _ => .ok (.scalar (.val 7)))
    mat2x3 mat2x3 rfl).2 (by decide) (by decide)

/-- Claim C7: on real-valued equal-sample inputs, LinearCKA returns
`HSIC(X,Y) / sqrt(HSIC(X,X) · HSIC(Y,Y))`, where HSIC(A,B) is the sum of
elementwise products of the doubly-centered linear Gram matrices of A and B,
centering an N × N matrix K as `H·K·H` with `H = I − (1/N)·J`.  (Stated
under nonzero self-HSIC on both sides; otherwise the quotient is 0/0, NaN.)
The source computes `sqrt(HSIC_XX) * sqrt(HSIC_YY)`; the claim's
`sqrt(HSIC_XX · HSIC_YY)` agrees because both factors are nonnegative. -/
theorem claim_C7 (n fx fy : ℕ) (A B : ℕ → ℕ → ℝ)
    (hXX : hsicR n fx fx A A ≠ 0) (hYY : hsicR n fy fy B B ≠ 0) :
    Metric.call LinearCKAMetric
      (.d2 (Mat.ofReal n fx A)) (.d2 (Mat.ofReal n fy B)) =
      .ok (.scalar (.val (ckaSpec n fx fy A B))) :=
  cka_call n fx fy A B hXX hYY

/-- Witness for C7 at a concrete 2-sample, 1-feature input pair. -/
theorem claim_C7_witness :
    hsicR 2 1 1 cw cw ≠ 0 ∧
    Metric.call LinearCKAMetric
      (.d2 (Mat.ofReal 2 1 cw)) (.d2 (Mat.ofReal 2 1 cw)) =
      .ok (.scalar (.val (ckaSpec 2 1 1 cw cw))) :=
  ⟨by rw [hsic_cw]; norm_num,
    claim_C7 2 1 1 cw cw (by rw [hsic_cw]; norm_num) (by rw [hsic_cw]; norm_num)⟩

/-- Claim C1 (amended): with equal sample counts and different feature
counts, the six non-geometry metrics — PearsonR, SpearmanRho, KendallTau,
RMSE, ClassificationAccuracy, RankAccuracy — raise ShapeError regardless of
their scoring routine (so before any scoring runs); LinearCKA never raises
and returns a scalar; RepresentationalSimilarity (default configuration)
never raises for this reason and returns a scalar provided there are at
least 3 samples.  With 2 or fewer samples RepresentationalSimilarity
instead raises a ValueError from its inner Pearson comparison (see the
counterexample), which is the one amendment to the claim. -/
theorem claim_C1 (X Y : Mat) (hr : X.rows = Y.rows) (hc : X.cols ≠ Y.cols) :
    (∀ name ∈ ["PearsonR", "SpearmanRho", "KendallTau", "RMSE",
        "ClassificationAccuracy", "RankAccuracy"],
      ∀ app : Mat → Mat → Except PyErr PyVal,
        Metric.call ⟨name, app⟩ (.d2 X) (.d2 Y) = .error .shapeError) ∧
    (3 ≤ X.rows → ∃ s, Metric.call RSDefault (.d2 X) (.d2 Y) = .ok (.scalar s)) ∧
    (∃ s, Metric.call LinearCKAMetric (.d2 X) (.d2 Y) = .ok (.scalar s)) := by
  refine ⟨?_, fun h3 => rs_default_ok X Y hr h3, ?_⟩
  · intro name hname app
    have hnot : name ∉ geometryExempt := by
      simp only [List.mem_cons, List.not_mem_nil, or_false] at hname
      rcases hname with rfl | rfl | rfl | rfl | rfl | rfl
      all_goals decide
    exact call_cols_ne ⟨name, app⟩ (.d2 X) (.d2 Y) hr hnot hc
  · refine ⟨Fp.div (LinearCKA.HSIC X Y)
      (Fp.mul (Fp.sqrt (LinearCKA.HSIC X X)) (Fp.sqrt (LinearCKA.HSIC Y Y))), ?_⟩
    rw [call_dispatch_exempt LinearCKAMetric (.d2 X) (.d2 Y) hr
      (by simp [LinearCKAMetric, geometryExempt])]
    rfl

/-- Witness for C1 at the spec's scenario: X of shape (10, 3) and Y of
shape (10, 4). -/
theorem claim_C1_witness :
    mat10x3.cols ≠ mat10x4.cols ∧
    (∀ name ∈ ["PearsonR", "SpearmanRho", "KendallTau", "RMSE",
        "ClassificationAccuracy", "RankAccuracy"],
      ∀ app : Mat → Mat → Except PyErr PyVal,
        Metric.call ⟨name, app⟩ (.d2 mat10x3) (.d2 mat10x4) = .error .shapeError) ∧
    (∃ s, Metric.call RSDefault (.d2 mat10x3) (.d2 mat10x4) = .ok (.scalar s)) ∧
    (∃ s, Metric.call LinearCKAMetric (.d2 mat10x3) (.d2 mat10x4) = .ok (.scalar s)) := by
  obtain ⟨h6, hRS, hCKA⟩ := claim_C1 mat10x3 mat10x4 rfl (by decide)
  exact ⟨by decide, h6, hRS (by decide), hCKA⟩

/-- Counterexample to C1 as stated: with only 2 samples — X of shape (2, 3),
Y of shape (2, 4), equal sample counts and different feature counts —
RepresentationalSimilarity does not return a scalar: the strictly-upper
triangle has a single entry and the inner Pearson comparison raises a
ValueError (scipy requires at least 2 observations). -/
theorem claim_C1_counterexample :
    (mat2x3.rows = mat2x4.rows ∧ mat2x3.cols ≠ mat2x4.cols) ∧
    Metric.call RSDefault (.d2 mat2x3) (.d2 mat2x4) = .error .valueError :=
  ⟨⟨rfl, by decide⟩, rs_default_two_rows mat2x3 mat2x4 rfl rfl⟩

theorem dc2_entries : ∀ i j, i < 2 → j < 2 →
    pairwise_distances2 euclidean Xc2 Yc2 i j = .val (dc2 i j) := by
  intro i j hi hj
  interval_cases i <;> interval_cases j <;>
    (simp only [pairwise_distances2]
     rw [row_of_one_col Xc2 rfl, row_of_one_col Yc2 rfl]
     norm_num [Xc2, Yc2, dc2, euclidean_single])

theorem rankAccuracyRow_dc2 : rankAccuracyRow dc2 2 = 1 := by
  norm_num [rankAccuracyRow, rsum_eq_sum_range, Finset.sum_range_succ,
    Finset.sum_range_zero, dc2, List.range_succ, List.range_zero,
    List.filter_append, List.filter_cons, List.filter_nil]

theorem rankAccuracyColumn_dc2 : rankAccuracyColumn dc2 2 = 1 / 2 := by
  norm_num [rankAccuracyColumn, rsum_eq_sum_range, Finset.sum_range_succ,
    Finset.sum_range_zero, dc2, List.range_succ, List.range_zero,
    List.filter_append, List.filter_cons, List.filter_nil]

/-- Claim C2 (amended): for matched-row inputs with N ≥ 2 samples whose
configured distance matrix is the real-valued d (d i j the distance between
X's row i and Y's row j), RankAccuracy equals the mean over j of the
fraction of the other N−1 entries of ROW j of d — the distances from X's
row j to the non-matching rows of Y — that exceed the matched diagonal
distance d j j.  The claim's column-wise reading (entries of column j of d)
does not hold; the two differ because d is not symmetric (see the
counterexample). -/
theorem claim_C2 (dist : List Fp → List Fp → Fp) (X Y : Mat) (N : ℕ)
    (d : ℕ → ℕ → ℝ) (hx : X.rows = N) (hy : Y.rows = N) (hc : X.cols = Y.cols)
    (h2 : 2 ≤ N)
    (hd : ∀ i j, i < N → j < N → dist (X.row i) (Y.row j) = .val (d i j)) :
    Metric.call (RankAccuracyMetric dist) (.d2 X) (.d2 Y) =
      .ok (.scalar (.val (rankAccuracyRow d N))) :=
  rankAccuracy_call dist X Y N d hx hy hc h2 hd

/-- Witness for C2 at a concrete (2, 1) input pair with the constant-zero
distance. -/
theorem claim_C2_witness :
    (2 : ℕ) ≤ 2 ∧
    Metric.call (RankAccuracyMetric (fun _ _ => .val 0))
      (.d2 mat2x1z) (.d2 mat2x1z) =
      .ok (.scalar (.val (rankAccuracyRow (fun _ _ => 0) 2))) :=
  ⟨by decide, claim_C2 (fun _ _ => .val 0) mat2x1z mat2x1z 2 (fun _ _ => 0)
    rfl rfl rfl (by decide) (fun _ _ _ _ => rfl)⟩

/-- Counterexample to C2 as stated: X = (0, 10)ᵀ and Y = (0, 1)ᵀ under the
default Euclidean distance.  The distance matrix is d = [[0, 1], [10, 9]];
the source returns 1, while the claim's column-wise formula gives 1/2. -/
theorem claim_C2_counterexample :
    (∀ i j, i < 2 → j < 2 →
      pairwise_distances2 euclidean Xc2 Yc2 i j = .val (dc2 i j)) ∧
    Metric.call (RankAccuracyMetric euclidean) (.d2 Xc2) (.d2 Yc2) =
      .ok (.scalar (.val 1)) ∧
    rankAccuracyColumn dc2 2 = 1 / 2 ∧ (1 : ℝ) ≠ 1 / 2 := by
  refine ⟨dc2_entries, ?_, rankAccuracyColumn_dc2, by norm_num⟩
  rw [rankAccuracy_call euclidean Xc2 Yc2 2 dc2 rfl rfl rfl (by norm_num)
    dc2_entries]
  rw [rankAccuracyRow_dc2]

/-- Claim C3 (amended): for 1-column inputs under the default correlation
distance every dissimilarity entry is NaN and is replaced by 0 before the
comparison, so the vectors handed to the inner comparison contain no NaN;
but, for inputs with at least 3 samples, the final scalar handed back to the
caller is itself always NaN — contrary to the claim's "never NaN" — because
the inner Pearson comparison of the two constant all-zero dissimilarity
vectors is undefined. -/
theorem claim_C3 (X Y : Mat) (hx : X.cols = 1) (hy : Y.cols = 1)
    (hr : X.rows = Y.rows) (h3 : 3 ≤ X.rows) :
    (∀ p ∈ triuIndices X.rows,
      nansub (pairwise_distances1 correlationDist X) p.1 p.2 = .val 0 ∧
      nansub (pairwise_distances1 correlationDist Y) p.1 p.2 = .val 0) ∧
    Metric.call RSDefault (.d2 X) (.d2 Y) = .ok (.scalar .nan) := by
  refine ⟨fun p _ => ⟨?_, ?_⟩, rs_default_onecol X Y hx hy hr h3⟩
  · simp [nansub, pairwise1_corr_onecol X hx]
  · simp [nansub, pairwise1_corr_onecol Y hy]

/-- Witness for C3 at a concrete pair of identical (3, 1) inputs. -/
theorem claim_C3_witness :
    3 ≤ mat3x1a.rows ∧
    Metric.call RSDefault (.d2 mat3x1a) (.d2 mat3x1a) = .ok (.scalar .nan) :=
  ⟨by decide, (claim_C3 mat3x1a mat3x1a rfl rfl rfl (by decide)).2⟩

/-- Counterexample to C3 as stated: a concrete pair of (3, 1) inputs for
which the final scalar returned by RepresentationalSimilarity is NaN, not a
non-NaN value. -/
theorem claim_C3_counterexample :
    Metric.call RSDefault (.d2 mat3x1a) (.d2 mat3x1b) = .ok (.scalar .nan) :=
  rs_default_onecol mat3x1a mat3x1b rfl rfl rfl (by decide)

end

end Braincode
